import Mathlib

/-!
# Go-Next user core: shallow embedding

Embedding of `backend/internal/models/user.go`,
`backend/internal/services/user_service.go` and the statistics handler of
`backend/internal/handlers/user_handler.go`.

The service talks to one table (`users`) through the global handle
`database.DB`.  The table is a list of rows; every statement the service
issues is a function on that list.  What the statements do is fixed by the
query the service writes and by the column tags of `models.User`:

* `DeletedAt gorm.DeletedAt`: every query and every `Delete` issued through
  the handle carries `deleted_at IS NULL` unless the chain says `Unscoped()`
  (this is why `GetAll` is documented "excluding soft deleted" although it
  writes a bare `Find`, and why `Restore` has to say `Unscoped()`);
  `Delete` writes `deleted_at = now` instead of removing the row;
* `UpdatedAt ... autoUpdateTime`, `CreatedAt ... autoCreateTime`: an insert
  stamps both columns, `Save` and `Update` stamp `updated_at`;
* `ID ... primary_key;default:gen_random_uuid()`, `Name size:100`,
  `Email size:100;uniqueIndex`, `Role check:role IN ('admin','client')`:
  constraints of the migrated table, a write that breaks one fails with a
  store error and changes nothing.

Time is a natural number; the value of `NowFunc` and the identifier drawn by
`gen_random_uuid()` are arguments of the operation that uses them.  Transport
faults of the connection are a list held next to the rows: each statement
takes the head of the list, and fails with that error when it is `some`.
`utils.HashPassword` and `utils.CheckPassword` are taken as parameters.
-/

namespace GoNext

/-! ## models/user.go -/

/-- Go type `UserRole`, a string. -/
abbrev UserRole := String

def RoleAdmin : UserRole := "admin"

def RoleClient : UserRole := "client"

/-- Struct `User`; `DeletedAt` is `none` for an active row. -/
structure User where
  ID : String
  Name : String
  Email : String
  Password : String
  Role : UserRole
  CreatedAt : Nat
  UpdatedAt : Nat
  DeletedAt : Option Nat
deriving DecidableEq, Repr

/-- Hook `BeforeCreate`. -/
def BeforeCreate (u : User) : User :=
  if u.Role = "" then { u with Role := RoleClient } else u

structure CreateUserRequest where
  Name : String
  Email : String
  Password : String
  Role : UserRole
deriving DecidableEq, Repr

structure UpdateUserRequest where
  ID : String
  Name : String
  Email : String
  Password : String
  Role : UserRole
deriving DecidableEq, Repr

structure LoginRequest where
  Email : String
  Password : String
deriving DecidableEq, Repr

/-! ## Errors -/

/-- Go error values met in the service. -/
inductive Error where
  /-- Value `gorm.ErrRecordNotFound`. -/
  | ErrRecordNotFound
  /-- Any other error reported by the store, with its text. -/
  | store (msg : String)
  /-- Results of `errors.New(msg)` and of `fmt.Errorf(msg)` without a verb. -/
  | text (msg : String)
  /-- Result of `fmt.Errorf(msg + ": %w", inner)`. -/
  | wrap (msg : String) (inner : Error)
deriving DecidableEq, Repr

deriving instance DecidableEq for Except

/-- Package `utils`: the two password functions the service calls. -/
structure Hasher where
  HashPassword : String → Except Error String
  CheckPassword : String → String → Bool

/-! ## The store behind `database.DB` -/

/-- Table `users` and the pending faults of the connection. -/
structure DB where
  rows : List User
  faults : List (Option String)
deriving DecidableEq, Repr

/-- Outcome of the transport for the next statement. -/
def DB.nextFault (db : DB) : Option String × DB :=
  match db.faults with
  | [] => (none, db)
  | f :: fs => (f, { db with faults := fs })

/-- Fields `Error` and `RowsAffected` of the value a gorm statement returns. -/
structure Exec where
  Error : Option Error
  RowsAffected : Nat
deriving DecidableEq, Repr

/-- Soft-delete scope `deleted_at IS NULL`. -/
def active (u : User) : Bool := u.DeletedAt.isNone

/-- Clause `ORDER BY id LIMIT 1` of `First`. -/
def minByID : List User → Option User
  | [] => none
  | u :: us =>
    match minByID us with
    | none => some u
    | some v => if v.ID < u.ID then some v else some u

/-- Chain `DB.Where(cond).First(&user)`. -/
def First (cond : User → Bool) (db : DB) : Except Error User × DB :=
  match db.nextFault with
  | (some e, db1) => (.error (.store e), db1)
  | (none, db1) =>
    match minByID (db1.rows.filter (fun u => active u && cond u)) with
    | some u => (.ok u, db1)
    | none => (.error .ErrRecordNotFound, db1)

/-- Chain `DB.Where(cond).Find(&users)`: the slice and the error. -/
def Find (cond : User → Bool) (db : DB) : (List User × Option Error) × DB :=
  match db.nextFault with
  | (some e, db1) => (([], some (.store e)), db1)
  | (none, db1) => ((db1.rows.filter (fun u => active u && cond u), none), db1)

/-- Chain `DB.Model(&User).Where(cond).Count(&count)`: the count and the
error. -/
def CountWhere (cond : User → Bool) (db : DB) : (Int × Option Error) × DB :=
  match db.nextFault with
  | (some e, db1) => ((0, some (.store e)), db1)
  | (none, db1) =>
    (((db1.rows.filter (fun u => active u && cond u)).length, none), db1)

/-- Constraint of the table that the row `u` breaks next to the rows
`others`, if any. -/
def violation (others : List User) (u : User) : Option String :=
  if others.any (fun r => r.ID == u.ID) then
    some "duplicate key value violates unique constraint users_pkey"
  else if 100 < u.Name.length then
    some "value too long for type character varying(100)"
  else if 100 < u.Email.length then
    some "value too long for type character varying(100)"
  else if others.any (fun r => r.Email == u.Email) then
    some "duplicate key value violates unique constraint idx_users_email"
  else if u.Role != RoleAdmin && u.Role != RoleClient then
    some "new row violates check constraint chk_users_role"
  else none

/-- Call `DB.Create(user)` on a record whose key and timestamps are zero:
runs the hook, takes the key from `gen_random_uuid()`, stamps both
timestamps, and inserts unless a constraint is broken. -/
def dbCreate (u : User) (newId : String) (now : Nat) (db : DB) :
    (User × Option Error) × DB :=
  match db.nextFault with
  | (some e, db1) => ((u, some (.store e)), db1)
  | (none, db1) =>
    let row := { BeforeCreate u with ID := newId, CreatedAt := now, UpdatedAt := now }
    match violation db1.rows row with
    | some m => ((row, some (.store m)), db1)
    | none => ((row, none), { db1 with rows := db1.rows ++ [row] })

/-- Call `DB.Save(user)` on a record loaded by its key: `UPDATE` of every
column `WHERE id = user.ID AND deleted_at IS NULL`, with `updated_at = now`.
The insert that gorm falls back to needs a zero key or no matched row, and
`Update` saves the row it has just loaded by that key. -/
def dbSave (u : User) (now : Nat) (db : DB) : (User × Option Error) × DB :=
  let u1 := { u with UpdatedAt := now }
  match db.nextFault with
  | (some e, db1) => ((u1, some (.store e)), db1)
  | (none, db1) =>
    match violation (db1.rows.filter (fun r => r.ID != u.ID)) u1 with
    | some m => ((u1, some (.store m)), db1)
    | none =>
      let rows1 := db1.rows.map (fun r => if active r && r.ID == u.ID then u1 else r)
      ((u1, none), { db1 with rows := rows1 })

/-- Call `DB.Delete(&User, cond)`: soft delete of the active rows that
satisfy `cond`. -/
def dbDelete (cond : User → Bool) (now : Nat) (db : DB) : Exec × DB :=
  match db.nextFault with
  | (some e, db1) => (⟨some (.store e), 0⟩, db1)
  | (none, db1) =>
    let rows1 := db1.rows.map
      (fun u => if active u && cond u then { u with DeletedAt := some now } else u)
    (⟨none, (db1.rows.filter (fun u => active u && cond u)).length⟩, { db1 with rows := rows1 })

/-- Chain `DB.Model(&User).Unscoped().Where(cond).Update("deleted_at", nil)`:
sets `deleted_at = NULL` and `updated_at = now` on every row that satisfies
`cond`, soft-deleted or not. -/
def dbUndelete (cond : User → Bool) (now : Nat) (db : DB) : Exec × DB :=
  match db.nextFault with
  | (some e, db1) => (⟨some (.store e), 0⟩, db1)
  | (none, db1) =>
    let rows1 := db1.rows.map
      (fun u => if cond u then { u with DeletedAt := none, UpdatedAt := now } else u)
    (⟨none, (db1.rows.filter cond).length⟩, { db1 with rows := rows1 })

/-! ## services/user_service.go -/

/-- Method `GetAll`. -/
def GetAll (db : DB) : (List User × Option Error) × DB :=
  Find (fun _ => true) db

/-- Method `GetByID`. -/
def GetByID (id : String) (db : DB) : Except Error User × DB :=
  match First (fun u => u.ID == id) db with
  | (.error e, db1) =>
    if e = .ErrRecordNotFound then (.error (.text "user not found"), db1)
    else (.error e, db1)
  | (.ok user, db1) => (.ok user, db1)

/-- Method `GetByEmail`. -/
def GetByEmail (email : String) (db : DB) : Except Error User × DB :=
  match First (fun u => u.Email == email) db with
  | (.error e, db1) =>
    if e = .ErrRecordNotFound then (.error (.text "user not found"), db1)
    else (.error e, db1)
  | (.ok user, db1) => (.ok user, db1)

/-- Method `GetByRole`. -/
def GetByRole (role : UserRole) (db : DB) : (List User × Option Error) × DB :=
  Find (fun u => u.Role == role) db

/-- Method `Create`; the pair is the Go result `(*User, error)`. -/
def Create (h : Hasher) (req : CreateUserRequest) (newId : String) (now : Nat) (db : DB) :
    (Option User × Option Error) × DB :=
  match First (fun u => u.Email == req.Email) db with
  | (.ok _, db1) => ((none, some (.text "email already exists")), db1)
  | (.error _, db1) =>
    match h.HashPassword req.Password with
    | .error err => ((none, some (.wrap "failed to hash password" err)), db1)
    | .ok hashedPassword =>
      let role := if req.Role = "" then RoleClient else req.Role
      let user : User :=
        { ID := "", Name := req.Name, Email := req.Email, Password := hashedPassword,
          Role := role, CreatedAt := 0, UpdatedAt := 0, DeletedAt := none }
      match dbCreate user newId now db1 with
      | ((_, some err), db2) => ((none, some err), db2)
      | ((user1, none), db2) => ((some user1, none), db2)

/-- Step `if req.Email != ""` of `Update`: `none` stands for the return of
"email already exists". -/
def updateEmail (req : UpdateUserRequest) (user : User) (db : DB) : Option User × DB :=
  if req.Email ≠ "" then
    match First (fun u => u.Email == req.Email && u.ID != req.ID) db with
    | (.ok _, db1) => (none, db1)
    | (.error _, db1) => (some { user with Email := req.Email }, db1)
  else (some user, db)

/-- Step `if req.Password != ""` of `Update`. -/
def updatePassword (h : Hasher) (req : UpdateUserRequest) (user : User) : Except Error User :=
  if req.Password ≠ "" then
    match h.HashPassword req.Password with
    | .error err => .error (.wrap "failed to hash password" err)
    | .ok hashedPassword => .ok { user with Password := hashedPassword }
  else .ok user

/-- Method `Update`; the pair is the Go result `(*User, error)`, and the
last return gives the record together with the error of `Save`. -/
def Update (h : Hasher) (req : UpdateUserRequest) (now : Nat) (db : DB) :
    (Option User × Option Error) × DB :=
  match GetByID req.ID db with
  | (.error err, db1) => ((none, some err), db1)
  | (.ok user, db1) =>
    let user1 := if req.Name ≠ "" then { user with Name := req.Name } else user
    match updateEmail req user1 db1 with
    | (none, db2) => ((none, some (.text "email already exists")), db2)
    | (some user2, db2) =>
      match updatePassword h req user2 with
      | .error err => ((none, some err), db2)
      | .ok user3 =>
        let user4 := if req.Role ≠ "" then { user3 with Role := req.Role } else user3
        match dbSave user4 now db2 with
        | ((user5, err), db3) => ((some user5, err), db3)

/-- Method `Delete`. -/
def Delete (id : String) (now : Nat) (db : DB) : Option Error × DB :=
  match dbDelete (fun u => u.ID == id) now db with
  | (result, db1) =>
    if result.RowsAffected = 0 then (some (.text "user not found"), db1)
    else (result.Error, db1)

/-- Method `Restore`. -/
def Restore (id : String) (now : Nat) (db : DB) : Option Error × DB :=
  match dbUndelete (fun u => u.ID == id) now db with
  | (result, db1) =>
    if result.RowsAffected = 0 then (some (.text "user not found"), db1)
    else (result.Error, db1)

/-- Method `Authenticate`. -/
def Authenticate (h : Hasher) (req : LoginRequest) (db : DB) :
    (Option User × Option Error) × DB :=
  match GetByEmail req.Email db with
  | (.error _, db1) => ((none, some (.text "invalid email or password")), db1)
  | (.ok user, db1) =>
    if !h.CheckPassword user.Password req.Password then
      ((none, some (.text "invalid email or password")), db1)
    else ((some user, none), db1)

/-- Method `Count`. -/
def Count (db : DB) : (Int × Option Error) × DB :=
  CountWhere (fun _ => true) db

/-- Method `CountByRole`. -/
def CountByRole (role : UserRole) (db : DB) : (Int × Option Error) × DB :=
  CountWhere (fun u => u.Role == role) db

/-! ## handlers/user_handler.go: statistics -/

/-- Body the handler `GetUserStats` writes: HTTP status, the fields of
`Response`, and the three counts under `data`. -/
structure StatsResponse where
  status : Nat
  Success : Bool
  Message : String
  Error : String
  total : Int
  admins : Int
  clients : Int
deriving DecidableEq, Repr

/-- Handler `GetUserStats`: the error of each count goes to the blank
identifier. -/
def GetUserStats (db : DB) : StatsResponse × DB :=
  match Count db with
  | ((totalCount, _), db1) =>
    match CountByRole RoleAdmin db1 with
    | ((adminCount, _), db2) =>
      match CountByRole RoleClient db2 with
      | ((clientCount, _), db3) =>
        ({ status := 200, Success := true,
           Message := "User statistics retrieved successfully", Error := "",
           total := totalCount, admins := adminCount, clients := clientCount }, db3)

/-! ## Sequences of calls -/

/-- One mutating call on the user service, with the time of the call and,
for `Create`, the identifier on offer from `gen_random_uuid()`. -/
inductive Call where
  | create (req : CreateUserRequest) (newId : String) (now : Nat)
  | update (req : UpdateUserRequest) (now : Nat)
  | delete (id : String) (now : Nat)
  | restore (id : String) (now : Nat)
deriving DecidableEq, Repr

/-- Store left by one call. -/
def Call.run (h : Hasher) : Call → DB → DB
  | .create req newId now, db => (Create h req newId now db).2
  | .update req now, db => (Update h req now db).2
  | .delete id now, db => (Delete id now db).2
  | .restore id now, db => (Restore id now db).2

/-- Store left by a sequence of calls, the head of the list first. -/
def runCalls (h : Hasher) : List Call → DB → DB
  | [], db => db
  | c :: cs, db => runCalls h cs (c.run h db)

/-! ## Worked examples -/

/-- Hasher for the worked examples: the digest is the password behind a
fixed tag. -/
def demoHasher : Hasher where
  HashPassword := fun p => .ok ("$2a$" ++ p)
  CheckPassword := fun hashed p => hashed == "$2a$" ++ p

def ann : User :=
  { ID := "u1", Name := "Ann", Email := "ann@x.com", Password := "$2a$secret1",
    Role := "client", CreatedAt := 1, UpdatedAt := 1, DeletedAt := none }

def bob : User :=
  { ID := "u2", Name := "Bob", Email := "bob@x.com", Password := "$2a$hunter2",
    Role := "admin", CreatedAt := 2, UpdatedAt := 3, DeletedAt := some 4 }

def demoDB : DB := { rows := [ann, bob], faults := [] }

/-- Store of the worked examples on a connection whose next three
statements fail. -/
def brokenDB : DB :=
  { rows := [ann, bob],
    faults := [some "connection refused", some "connection refused", some "connection refused"] }


/-! ## Lemmas on the store -/

theorem nextFault_of_healthy {db : DB} (hf : db.faults = []) : db.nextFault = (none, db) := by
  simp [DB.nextFault, hf]

theorem minByID_eq_none {l : List User} : minByID l = none ↔ l = [] := by
  cases l with
  | nil => simp [minByID]
  | cons u us =>
    simp only [minByID]
    cases minByID us with
    | none => simp
    | some v => by_cases hv : v.ID < u.ID <;> simp [hv]

theorem minByID_mem {l : List User} {u : User} (h : minByID l = some u) : u ∈ l := by
  induction l generalizing u with
  | nil => simp [minByID] at h
  | cons a as ih =>
    simp only [minByID] at h
    cases hm : minByID as with
    | none =>
      rw [hm] at h
      simp at h
      simp [h]
    | some v =>
      rw [hm] at h
      by_cases hv : v.ID < a.ID
      · simp [hv] at h
        subst h
        exact List.mem_cons_of_mem _ (ih hm)
      · simp [hv] at h
        simp [h]

theorem First_not_found {cond : User → Bool} {db : DB} (hf : db.faults = [])
    (h : ∀ u ∈ db.rows, ¬ (active u = true ∧ cond u = true)) :
    First cond db = (.error .ErrRecordNotFound, db) := by
  have hnil : db.rows.filter (fun u => active u && cond u) = [] := by
    rw [List.filter_eq_nil_iff]
    intro u hu
    simpa using h u hu
  simp [First, nextFault_of_healthy hf, hnil, minByID]

theorem First_found {cond : User → Bool} {db : DB} (hf : db.faults = [])
    (h : ∃ u ∈ db.rows, active u = true ∧ cond u = true) :
    ∃ u ∈ db.rows, active u = true ∧ cond u = true ∧ First cond db = (.ok u, db) := by
  obtain ⟨w, hw, hwa, hwc⟩ := h
  have hmem : w ∈ db.rows.filter (fun u => active u && cond u) := by
    simp [List.mem_filter, hw, hwa, hwc]
  cases hm : minByID (db.rows.filter (fun u => active u && cond u)) with
  | none =>
    rw [minByID_eq_none] at hm
    rw [hm] at hmem
    simp at hmem
  | some u =>
    have hu := minByID_mem hm
    simp only [List.mem_filter, Bool.and_eq_true] at hu
    exact ⟨u, hu.1, hu.2.1, hu.2.2, by simp [First, nextFault_of_healthy hf, hm]⟩

theorem First_rows (cond : User → Bool) (db : DB) : (First cond db).2.rows = db.rows := by
  unfold First DB.nextFault
  cases db.faults with
  | nil =>
    simp only
    cases minByID (db.rows.filter (fun u => active u && cond u)) <;> rfl
  | cons f fs =>
    cases f with
    | none =>
      simp only
      cases minByID (db.rows.filter (fun u => active u && cond u)) <;> rfl
    | some e => rfl


/-! ## Soft delete and restore -/

theorem Delete_healthy (id : String) (now : Nat) (db : DB) (hf : db.faults = []) :
    Delete id now db =
      (if (db.rows.filter (fun u => active u && u.ID == id)).length = 0
        then some (.text "user not found") else none,
       ⟨db.rows.map
          (fun u => if active u && u.ID == id then { u with DeletedAt := some now } else u),
        db.faults⟩) := by
  simp only [Delete, dbDelete, nextFault_of_healthy hf]
  split <;> rfl

theorem Restore_healthy (id : String) (now : Nat) (db : DB) (hf : db.faults = []) :
    Restore id now db =
      (if (db.rows.filter (fun u => u.ID == id)).length = 0
        then some (.text "user not found") else none,
       ⟨db.rows.map
          (fun u => if u.ID == id then { u with DeletedAt := none, UpdatedAt := now } else u),
        db.faults⟩) := by
  simp only [Restore, dbUndelete, nextFault_of_healthy hf]
  split <;> rfl

theorem Delete_ok_of_active {id : String} {now : Nat} {db : DB} (hf : db.faults = [])
    (hex : ∃ r ∈ db.rows, r.ID = id ∧ r.DeletedAt = none) :
    (Delete id now db).1 = none := by
  obtain ⟨r, hr, hid, hd⟩ := hex
  have hmem : r ∈ db.rows.filter (fun u => active u && u.ID == id) := by
    simp [List.mem_filter, hr, hid, hd, active]
  rw [Delete_healthy id now db hf]
  have : (db.rows.filter (fun u => active u && u.ID == id)).length ≠ 0 := by
    intro h0
    rw [List.length_eq_zero] at h0
    rw [h0] at hmem
    simp at hmem
  simp [this]

theorem Restore_ok_of_mem {id : String} {now : Nat} {db : DB} (hf : db.faults = [])
    (hex : ∃ r ∈ db.rows, r.ID = id) :
    (Restore id now db).1 = none := by
  obtain ⟨r, hr, hid⟩ := hex
  have hmem : r ∈ db.rows.filter (fun u => u.ID == id) := by
    simp [List.mem_filter, hr, hid]
  rw [Restore_healthy id now db hf]
  have : (db.rows.filter (fun u => u.ID == id)).length ≠ 0 := by
    intro h0
    rw [List.length_eq_zero] at h0
    rw [h0] at hmem
    simp at hmem
  simp [this]

theorem Delete_Restore_healthy (db : DB) (id : String) (now1 now2 : Nat)
    (hf : db.faults = []) (hex : ∃ r ∈ db.rows, r.ID = id ∧ r.DeletedAt = none) :
    (Delete id now1 db).1 = none ∧
    (Restore id now2 (Delete id now1 db).2).1 = none ∧
    (Restore id now2 (Delete id now1 db).2).2.rows =
      db.rows.map (fun r =>
        if r.ID = id then { r with DeletedAt := none, UpdatedAt := now2 } else r) := by
  have hd := @Delete_ok_of_active id now1 db hf hex
  have hf1 : (Delete id now1 db).2.faults = [] := by
    rw [Delete_healthy id now1 db hf]; exact hf
  have hrows1 : (Delete id now1 db).2.rows = db.rows.map
      (fun u => if active u && u.ID == id then { u with DeletedAt := some now1 } else u) := by
    rw [Delete_healthy id now1 db hf]
  refine ⟨hd, ?_, ?_⟩
  · apply Restore_ok_of_mem hf1
    obtain ⟨r, hr, hid, hdel⟩ := hex
    refine ⟨{ r with DeletedAt := some now1 }, ?_, hid⟩
    rw [hrows1, List.mem_map]
    exact ⟨r, hr, by simp [active, hid, hdel]⟩
  · rw [Restore_healthy id now2 _ hf1]
    simp only [hrows1, List.map_map]
    apply List.map_congr_left
    intro r _
    by_cases hid : r.ID = id
    · by_cases ha : active r = true
      · simp [hid, ha]
      · simp [hid, ha]
    · simp [hid]

/-- C1 (as amended): on a healthy store, for the id of an active user,
`Delete` then `Restore` both succeed; every row with that id ends with
`DeletedAt` cleared and `UpdatedAt` set to the time of the `Restore`, its
other six fields as before, and every other row is unchanged. -/
theorem delete_then_restore (db : DB) (id : String) (now1 now2 : Nat)
    (hf : db.faults = []) (hex : ∃ r ∈ db.rows, r.ID = id ∧ r.DeletedAt = none) :
    (Delete id now1 db).1 = none ∧
    (Restore id now2 (Delete id now1 db).2).1 = none ∧
    (Restore id now2 (Delete id now1 db).2).2.rows =
      db.rows.map (fun r =>
        if r.ID = id then { r with DeletedAt := none, UpdatedAt := now2 } else r) :=
  Delete_Restore_healthy db id now1 now2 hf hex

/-- Witness for C1: Ann is deleted at time 10 and restored at time 12. -/
theorem delete_then_restore_witness :
    demoDB.faults = [] ∧ (∃ r ∈ demoDB.rows, r.ID = "u1" ∧ r.DeletedAt = none) ∧
    (Delete "u1" 10 demoDB).1 = none ∧
    (Restore "u1" 12 (Delete "u1" 10 demoDB).2).1 = none ∧
    (Restore "u1" 12 (Delete "u1" 10 demoDB).2).2.rows =
      demoDB.rows.map (fun r =>
        if r.ID = "u1" then { r with DeletedAt := none, UpdatedAt := 12 } else r) :=
  ⟨by decide, ⟨ann, by decide, by decide, by decide⟩,
    delete_then_restore demoDB "u1" 10 12 (by decide) ⟨ann, by decide, by decide, by decide⟩⟩

/-- C1 (as stated) fails: Ann is active with `UpdatedAt = 1`; `Delete` at
time 10 and `Restore` at time 12 both succeed, and her row then carries
`UpdatedAt = 12`, so the table holds no row with her id and her former
`UpdatedAt`. -/
theorem delete_then_restore_changes_updatedAt :
    ann ∈ demoDB.rows ∧ ann.ID = "u1" ∧ ann.DeletedAt = none ∧ ann.UpdatedAt = 1 ∧
    (Delete "u1" 10 demoDB).1 = none ∧
    (Restore "u1" 12 (Delete "u1" 10 demoDB).2).1 = none ∧
    (Restore "u1" 12 (Delete "u1" 10 demoDB).2).2.rows = [{ ann with UpdatedAt := 12 }, bob] ∧
    ¬ ∃ u ∈ (Restore "u1" 12 (Delete "u1" 10 demoDB).2).2.rows,
        u.ID = ann.ID ∧ u.UpdatedAt = ann.UpdatedAt := by
  decide


/-! ## Lookups -/

theorem GetByID_not_found {id : String} {db : DB} (hf : db.faults = [])
    (h : ∀ u ∈ db.rows, u.ID = id → u.DeletedAt ≠ none) :
    GetByID id db = (.error (.text "user not found"), db) := by
  have h1 : First (fun u => u.ID == id) db = (.error .ErrRecordNotFound, db) := by
    apply First_not_found hf
    intro u hu ⟨ha, hc⟩
    have hid : u.ID = id := by simpa using hc
    apply h u hu hid
    simpa [active] using ha
  simp [GetByID, h1]

/-- C2 (as amended): on a healthy store, for the id of an active user,
`Delete` succeeds and `GetByID` then answers "user not found"; the row stays
in the table with `DeletedAt` set to the time of the `Delete` and every
other field, and every other row, as before. -/
theorem getByID_after_delete (db : DB) (id : String) (now : Nat)
    (hf : db.faults = []) (hex : ∃ r ∈ db.rows, r.ID = id ∧ r.DeletedAt = none) :
    (Delete id now db).1 = none ∧
    (GetByID id (Delete id now db).2).1 = .error (.text "user not found") ∧
    (Delete id now db).2.rows = db.rows.map (fun r =>
      if r.ID = id ∧ r.DeletedAt = none then { r with DeletedAt := some now } else r) := by
  have hd := @Delete_ok_of_active id now db hf hex
  have hf1 : (Delete id now db).2.faults = [] := by
    rw [Delete_healthy id now db hf]; exact hf
  have hrows1 : (Delete id now db).2.rows = db.rows.map
      (fun u => if active u && u.ID == id then { u with DeletedAt := some now } else u) := by
    rw [Delete_healthy id now db hf]
  refine ⟨hd, ?_, ?_⟩
  · rw [GetByID_not_found hf1]
    intro u hu hid
    rw [hrows1, List.mem_map] at hu
    obtain ⟨r, _, hru⟩ := hu
    by_cases hc : (active r && r.ID == id) = true
    · rw [if_pos hc] at hru
      subst hru
      simp
    · rw [if_neg hc] at hru
      subst hru
      intro hnone
      apply hc
      simp [active, hnone, hid]
  · rw [hrows1]
    apply List.map_congr_left
    intro r _
    by_cases hid : r.ID = id
    · cases hdel : r.DeletedAt <;> simp [hid, hdel, active]
    · simp [hid]

/-- Witness for C2: Ann is deleted at time 10. -/
theorem getByID_after_delete_witness :
    demoDB.faults = [] ∧ (∃ r ∈ demoDB.rows, r.ID = "u1" ∧ r.DeletedAt = none) ∧
    (Delete "u1" 10 demoDB).1 = none ∧
    (GetByID "u1" (Delete "u1" 10 demoDB).2).1 = .error (.text "user not found") ∧
    (Delete "u1" 10 demoDB).2.rows = demoDB.rows.map (fun r =>
      if r.ID = "u1" ∧ r.DeletedAt = none then { r with DeletedAt := some 10 } else r) :=
  ⟨by decide, ⟨ann, by decide, by decide, by decide⟩,
    getByID_after_delete demoDB "u1" 10 (by decide) ⟨ann, by decide, by decide, by decide⟩⟩

/-- C2 (as stated) fails: Ann is active and `GetByID` returns her; after a
successful `Delete` her row is still stored, with `DeletedAt` set, but
`GetByID` returns no record and the "user not found" error. -/
theorem getByID_hides_soft_deleted :
    (GetByID "u1" demoDB).1 = .ok ann ∧
    (Delete "u1" 10 demoDB).1 = none ∧
    { ann with DeletedAt := some 10 } ∈ (Delete "u1" 10 demoDB).2.rows ∧
    (GetByID "u1" (Delete "u1" 10 demoDB).2).1 = .error (.text "user not found") ∧
    (GetByID "u1" (Delete "u1" 10 demoDB).2).1 ≠ .ok { ann with DeletedAt := some 10 } := by
  decide


theorem First_ok_mem {cond : User → Bool} {db : DB} {u : User}
    (h : (First cond db).1 = .ok u) : u ∈ db.rows ∧ active u = true ∧ cond u = true := by
  unfold First at h
  rcases hn : db.nextFault with ⟨f, db1⟩
  have hrows : db1.rows = db.rows := by
    unfold DB.nextFault at hn
    cases hfs : db.faults with
    | nil => rw [hfs] at hn; simp at hn; rw [← hn.2]
    | cons a as => rw [hfs] at hn; simp at hn; rw [← hn.2]
  rw [hn] at h
  cases f with
  | some e => simp at h
  | none =>
    simp only at h
    cases hm : minByID (db1.rows.filter (fun u => active u && cond u)) with
    | none => rw [hm] at h; simp at h
    | some v =>
      rw [hm] at h
      simp at h
      subst h
      have hv := minByID_mem hm
      simp only [List.mem_filter, Bool.and_eq_true] at hv
      rw [hrows] at hv
      exact hv

theorem Authenticate_eq (h : Hasher) (req : LoginRequest) (db : DB) :
    Authenticate h req db =
      match First (fun u => u.Email == req.Email) db with
      | (.error _, db1) => ((none, some (.text "invalid email or password")), db1)
      | (.ok user, db1) =>
        if h.CheckPassword user.Password req.Password = true then ((some user, none), db1)
        else ((none, some (.text "invalid email or password")), db1) := by
  unfold Authenticate GetByEmail
  rcases First (fun u => u.Email == req.Email) db with ⟨r, db1⟩
  cases r with
  | error e =>
    by_cases he : e = .ErrRecordNotFound <;> simp [he]
  | ok u =>
    cases hc : h.CheckPassword u.Password req.Password <;> simp [hc]

/-- C3: in every state of the store, a login whose email no row carries and
a login whose email is carried by rows none of whose stored hashes the
hasher verifies against the given password return the same result: no user,
and the error `errors.New("invalid email or password")`; neither changes a
row. -/
theorem authenticate_enumeration_resistant (h : Hasher) (db : DB) (absent wrong : LoginRequest)
    (habsent : ∀ u ∈ db.rows, u.Email ≠ absent.Email)
    (hpresent : ∃ u ∈ db.rows, u.Email = wrong.Email)
    (hwrong : ∀ u ∈ db.rows, u.Email = wrong.Email →
      h.CheckPassword u.Password wrong.Password = false) :
    (Authenticate h absent db).1 = (none, some (.text "invalid email or password")) ∧
    (Authenticate h wrong db).1 = (none, some (.text "invalid email or password")) ∧
    (Authenticate h absent db).1 = (Authenticate h wrong db).1 ∧
    (Authenticate h absent db).2.rows = db.rows ∧
    (Authenticate h wrong db).2.rows = db.rows := by
  have key : ∀ req : LoginRequest,
      (∀ u ∈ db.rows, u.Email = req.Email → h.CheckPassword u.Password req.Password = false) →
      (Authenticate h req db).1 = (none, some (.text "invalid email or password")) ∧
      (Authenticate h req db).2.rows = db.rows := by
    intro req hreq
    rw [Authenticate_eq]
    have hm := @First_ok_mem (fun u => u.Email == req.Email) db
    have hr := First_rows (fun u => u.Email == req.Email) db
    rcases hF : First (fun u => u.Email == req.Email) db with ⟨r, db1⟩
    rw [hF] at hm hr
    cases r with
    | error e => exact ⟨rfl, hr⟩
    | ok u =>
      obtain ⟨hu, _, hc⟩ := hm rfl
      have hcp := hreq u hu (by simpa using hc)
      simp only [hcp]
      exact ⟨rfl, hr⟩
  have _ := hpresent
  have h1 := key absent (fun u hu he => absurd he (habsent u hu))
  have h2 := key wrong hwrong
  exact ⟨h1.1, h2.1, h1.1.trans h2.1.symm, h1.2, h2.2⟩

/-- Witness for C3: nobody has the email `eve@x.com`, and Ann's password
is not `wrong`. -/
theorem authenticate_enumeration_resistant_witness :
    (∀ u ∈ demoDB.rows, u.Email ≠ "eve@x.com") ∧
    (∃ u ∈ demoDB.rows, u.Email = "ann@x.com") ∧
    (Authenticate demoHasher ⟨"eve@x.com", "secret1"⟩ demoDB).1 =
      (none, some (.text "invalid email or password")) ∧
    (Authenticate demoHasher ⟨"ann@x.com", "wrong"⟩ demoDB).1 =
      (none, some (.text "invalid email or password")) ∧
    (Authenticate demoHasher ⟨"eve@x.com", "secret1"⟩ demoDB).1 =
      (Authenticate demoHasher ⟨"ann@x.com", "wrong"⟩ demoDB).1 ∧
    (Authenticate demoHasher ⟨"eve@x.com", "secret1"⟩ demoDB).2.rows = demoDB.rows ∧
    (Authenticate demoHasher ⟨"ann@x.com", "wrong"⟩ demoDB).2.rows = demoDB.rows :=
  ⟨by decide, by decide,
    authenticate_enumeration_resistant demoHasher demoDB ⟨"eve@x.com", "secret1"⟩
      ⟨"ann@x.com", "wrong"⟩ (by decide) (by decide) (by decide)⟩

/-- C4: on a healthy store, a create request whose email is the email of an
active row returns no user and `errors.New("email already exists")`, and
leaves the store as it was, whatever the rest of the request, the hasher,
the identifier on offer and the time. -/
theorem create_email_taken (h : Hasher) (db : DB) (req : CreateUserRequest)
    (newId : String) (now : Nat) (hf : db.faults = [])
    (hex : ∃ u ∈ db.rows, u.Email = req.Email ∧ u.DeletedAt = none) :
    Create h req newId now db = ((none, some (.text "email already exists")), db) := by
  obtain ⟨w, hw, hwe, hwd⟩ := hex
  obtain ⟨u, _, _, _, hF⟩ := @First_found (fun u => u.Email == req.Email) db hf
    ⟨w, hw, by simp [active, hwd], by simp [hwe]⟩
  simp [Create, hF]

/-- Witness for C4: a second registration under Ann's email. -/
theorem create_email_taken_witness :
    demoDB.faults = [] ∧ (∃ u ∈ demoDB.rows, u.Email = "ann@x.com" ∧ u.DeletedAt = none) ∧
    Create demoHasher ⟨"Eve", "ann@x.com", "letmein", "admin"⟩ "u3" 20 demoDB =
      ((none, some (.text "email already exists")), demoDB) :=
  ⟨by decide, by decide,
    create_email_taken demoHasher demoDB ⟨"Eve", "ann@x.com", "letmein", "admin"⟩ "u3" 20
      (by decide) (by decide)⟩


/-! ## Registration -/

theorem violation_none {others : List User} {u : User}
    (hid : ∀ r ∈ others, r.ID ≠ u.ID) (hname : u.Name.length ≤ 100)
    (hemail : u.Email.length ≤ 100) (hfresh : ∀ r ∈ others, r.Email ≠ u.Email)
    (hrole : u.Role = RoleAdmin ∨ u.Role = RoleClient) :
    violation others u = none := by
  have h1 : others.any (fun r => r.ID == u.ID) = false := by
    rw [List.any_eq_false]
    intro r hr
    simpa using hid r hr
  have h2 : others.any (fun r => r.Email == u.Email) = false := by
    rw [List.any_eq_false]
    intro r hr
    simpa using hfresh r hr
  have h3 : (u.Role != RoleAdmin && u.Role != RoleClient) = false := by
    rcases hrole with h | h <;> simp [h]
  simp [violation, h1, h2, h3, Nat.not_lt.mpr hname, Nat.not_lt.mpr hemail]

/-- C5: on a healthy store, for a create request whose email no row
carries, whose name and email fit their columns (100 characters), whose
role is empty, "admin" or "client", and whose password the hasher digests to
`hashed`, with an identifier no row uses, `Create` succeeds; the returned
record is the row appended to the table; it has the request's name and
email, `hashed` as its password, role "client" when the request's role is
empty and the request's role otherwise, and no `DeletedAt`. -/
theorem create_fresh (h : Hasher) (db : DB) (req : CreateUserRequest)
    (newId : String) (now : Nat) (hashed : String)
    (hf : db.faults = [])
    (hfresh : ∀ u ∈ db.rows, u.Email ≠ req.Email)
    (hid : ∀ u ∈ db.rows, u.ID ≠ newId)
    (hname : req.Name.length ≤ 100) (hemail : req.Email.length ≤ 100)
    (hrole : req.Role = "" ∨ req.Role = "admin" ∨ req.Role = "client")
    (hhash : h.HashPassword req.Password = .ok hashed) :
    ∃ u : User,
      Create h req newId now db = ((some u, none), ⟨db.rows ++ [u], db.faults⟩) ∧
      u.Name = req.Name ∧ u.Email = req.Email ∧ u.Password = hashed ∧
      (req.Role = "" → u.Role = "client") ∧ (req.Role ≠ "" → u.Role = req.Role) ∧
      u.ID = newId ∧ u.CreatedAt = now ∧ u.UpdatedAt = now ∧ u.DeletedAt = none := by
  have hF : First (fun u => u.Email == req.Email) db = (.error .ErrRecordNotFound, db) := by
    apply First_not_found hf
    intro u hu ⟨_, hc⟩
    exact hfresh u hu (by simpa using hc)
  have hr : (if req.Role = "" then RoleClient else req.Role) = RoleAdmin ∨
      (if req.Role = "" then RoleClient else req.Role) = RoleClient := by
    rcases hrole with h0 | h0 | h0 <;> simp [h0, RoleAdmin, RoleClient]
  have hne : (if req.Role = "" then RoleClient else req.Role) ≠ "" := by
    rcases hr with h0 | h0 <;> rw [h0] <;> decide
  have hv : violation db.rows
      ⟨newId, req.Name, req.Email, hashed,
        if req.Role = "" then RoleClient else req.Role, now, now, none⟩ = none :=
    violation_none hid hname hemail hfresh hr
  refine ⟨⟨newId, req.Name, req.Email, hashed,
    if req.Role = "" then RoleClient else req.Role, now, now, none⟩, ?_, rfl, rfl, rfl,
    ?_, ?_, rfl, rfl, rfl, rfl⟩
  · simp only [Create, hF, hhash, dbCreate, nextFault_of_healthy hf, BeforeCreate, if_neg hne, hv]
  · intro h0
    simp [h0, RoleClient]
  · intro h0
    simp [h0]

/-- Witness for C5: Cy registers without a role. -/
theorem create_fresh_witness :
    demoDB.faults = [] ∧ (∀ u ∈ demoDB.rows, u.Email ≠ "cy@x.com") ∧
    (∀ u ∈ demoDB.rows, u.ID ≠ "u3") ∧
    ∃ u : User,
      Create demoHasher ⟨"Cy", "cy@x.com", "secret9", ""⟩ "u3" 20 demoDB =
        ((some u, none), ⟨demoDB.rows ++ [u], demoDB.faults⟩) ∧
      u.Name = "Cy" ∧ u.Email = "cy@x.com" ∧ u.Password = "$2a$secret9" ∧
      (("" : String) = "" → u.Role = "client") ∧ (("" : String) ≠ "" → u.Role = "") ∧
      u.ID = "u3" ∧ u.CreatedAt = 20 ∧ u.UpdatedAt = 20 ∧ u.DeletedAt = none :=
  ⟨by decide, by decide, by decide,
    create_fresh demoHasher demoDB ⟨"Cy", "cy@x.com", "secret9", ""⟩ "u3" 20 "$2a$secret9"
      (by decide) (by decide) (by decide) (by decide) (by decide) (by decide) rfl⟩


theorem First_healthy (cond : User → Bool) (db : DB) (hf : db.faults = []) :
    First cond db =
      (match minByID (db.rows.filter (fun u => active u && cond u)) with
        | some u => .ok u
        | none => .error .ErrRecordNotFound, db) := by
  simp only [First, nextFault_of_healthy hf]
  cases minByID (db.rows.filter (fun u => active u && cond u)) <;> rfl

theorem violation_none_email {others : List User} {u : User} (h : violation others u = none) :
    ∀ r ∈ others, r.Email ≠ u.Email := by
  intro r hr he
  have hany : others.any (fun r => r.Email == u.Email) = true := by
    rw [List.any_eq_true]
    exact ⟨r, hr, by simp [he]⟩
  unfold violation at h
  simp only [hany] at h
  split_ifs at h

/-- What a successful `Create` on a healthy store has done. -/
theorem Create_success {h : Hasher} {db db1 : DB} {req : CreateUserRequest}
    {newId : String} {now : Nat} {u : User} (hf : db.faults = [])
    (hc : Create h req newId now db = ((some u, none), db1)) :
    (∀ r ∈ db.rows, r.Email ≠ req.Email) ∧ h.HashPassword req.Password = .ok u.Password ∧
    u.Email = req.Email ∧ u.DeletedAt = none ∧ db1 = ⟨db.rows ++ [u], []⟩ := by
  unfold Create at hc
  rw [First_healthy _ db hf] at hc
  cases hm : minByID (db.rows.filter (fun u => active u && (fun u => u.Email == req.Email) u)) with
  | some v => rw [hm] at hc; simp at hc
  | none =>
    rw [hm] at hc
    simp only at hc
    cases hh : h.HashPassword req.Password with
    | error e => rw [hh] at hc; simp at hc
    | ok hashed =>
      rw [hh] at hc
      simp only [dbCreate, nextFault_of_healthy hf] at hc
      split at hc
      · simp at hc
      · rename_i user1 db2 heq
        split at heq
        · simp at heq
        · rename_i hv
          simp only [Prod.mk.injEq, Option.some.injEq, and_true] at heq hc
          obtain ⟨hu1, hdb2⟩ := heq
          obtain ⟨hu, hdb1⟩ := hc
          subst hu hdb1
          have hem := violation_none_email hv
          have hE : user1.Email = req.Email := by
            rw [← hu1]; unfold BeforeCreate; split <;> rfl
          have hP : user1.Password = hashed := by
            rw [← hu1]; unfold BeforeCreate; split <;> rfl
          have hD : user1.DeletedAt = none := by
            rw [← hu1]; unfold BeforeCreate; split <;> rfl
          refine ⟨?_, by rw [hP], hE, hD, ?_⟩
          · intro r hr
            have := hem r hr
            rw [hu1, hE] at this
            exact this
          · rw [← hdb2, hu1, hf]


theorem filter_append_fresh {rows : List User} {u : User} {e : String}
    (hfresh : ∀ r ∈ rows, r.Email ≠ e) (hE : u.Email = e) (hD : u.DeletedAt = none) :
    (rows ++ [u]).filter (fun r => active r && r.Email == e) = [u] := by
  have h1 : rows.filter (fun r => active r && r.Email == e) = [] := by
    rw [List.filter_eq_nil_iff]
    intro r hr
    simp [hfresh r hr]
  rw [List.filter_append, h1]
  simp [active, hE, hD]

/-- C6: let the hasher verify every digest it produces against the password
it was produced from.  When `Create` succeeds on a healthy store with record
`u`, then on the store it leaves `Authenticate` with the request's email and
password returns `u` and no error, and with the request's email and any
password the hasher does not verify against the stored digest it returns no
user and "invalid email or password". -/
theorem create_authenticate_roundtrip (h : Hasher) (db db1 : DB) (req : CreateUserRequest)
    (newId : String) (now : Nat) (u : User)
    (hlaw : ∀ p hashed, h.HashPassword p = .ok hashed → h.CheckPassword hashed p = true)
    (hf : db.faults = [])
    (hc : Create h req newId now db = ((some u, none), db1)) :
    (Authenticate h ⟨req.Email, req.Password⟩ db1).1 = (some u, none) ∧
    ∀ q, h.CheckPassword u.Password q = false →
      (Authenticate h ⟨req.Email, q⟩ db1).1 =
        (none, some (.text "invalid email or password")) := by
  obtain ⟨hfresh, hhash, hE, hD, hdb1⟩ := Create_success hf hc
  have hf1 : db1.faults = [] := by rw [hdb1]
  have hfil : db1.rows.filter (fun r => active r && r.Email == req.Email) = [u] := by
    rw [hdb1]; exact filter_append_fresh hfresh hE hD
  have hF : First (fun r => r.Email == req.Email) db1 = (.ok u, db1) := by
    rw [First_healthy _ db1 hf1, hfil]
    simp [minByID]
  constructor
  · rw [Authenticate_eq]
    simp only [hF, hlaw _ _ hhash]
    rfl
  · intro q hq
    rw [Authenticate_eq]
    simp only [hF, hq]
    rfl

/-- Witness for C6: Cy registers and logs in. -/
theorem create_authenticate_roundtrip_witness :
    (∀ p hashed, demoHasher.HashPassword p = .ok hashed →
      demoHasher.CheckPassword hashed p = true) ∧
    demoDB.faults = [] ∧
    (Authenticate demoHasher ⟨"cy@x.com", "secret9"⟩
        ⟨demoDB.rows ++ [⟨"u3", "Cy", "cy@x.com", "$2a$secret9", "client", 20, 20, none⟩], []⟩).1 =
      (some ⟨"u3", "Cy", "cy@x.com", "$2a$secret9", "client", 20, 20, none⟩, none) ∧
    ∀ q, demoHasher.CheckPassword "$2a$secret9" q = false →
      (Authenticate demoHasher ⟨"cy@x.com", q⟩
        ⟨demoDB.rows ++ [⟨"u3", "Cy", "cy@x.com", "$2a$secret9", "client", 20, 20, none⟩], []⟩).1 =
        (none, some (.text "invalid email or password")) :=
  ⟨by intro p hashed hp
      simp only [demoHasher, Except.ok.injEq] at hp
      simp [demoHasher, ← hp],
    by decide,
    create_authenticate_roundtrip demoHasher demoDB _ ⟨"Cy", "cy@x.com", "secret9", ""⟩ "u3" 20 _
      (by intro p hashed hp
          simp only [demoHasher, Except.ok.injEq] at hp
          simp [demoHasher, ← hp])
      (by decide) (by decide)⟩


/-! ## Update -/

theorem nextFault_rows (db : DB) : db.nextFault.2.rows = db.rows := by
  unfold DB.nextFault
  cases db.faults <;> rfl

theorem GetByID_rows (id : String) (db : DB) : (GetByID id db).2.rows = db.rows := by
  have hr := First_rows (fun u => u.ID == id) db
  unfold GetByID
  generalize First (fun u => u.ID == id) db = x at hr ⊢
  rcases x with ⟨r, db1⟩
  cases r with
  | error e => by_cases he : e = .ErrRecordNotFound <;> simpa [he] using hr
  | ok u => simpa using hr

theorem GetByID_ok {id : String} {db : DB} {u : User} (h : (GetByID id db).1 = .ok u) :
    u ∈ db.rows ∧ u.DeletedAt = none ∧ u.ID = id := by
  have hm := @First_ok_mem (fun u => u.ID == id) db u
  unfold GetByID at h
  rcases hF : First (fun u => u.ID == id) db with ⟨r, db1⟩
  rw [hF] at h hm
  cases r with
  | error e => by_cases he : e = .ErrRecordNotFound <;> simp [he] at h
  | ok v =>
    simp only [Except.ok.injEq] at h
    subst h
    obtain ⟨h1, h2, h3⟩ := hm rfl
    exact ⟨h1, by simpa [active] using h2, by simpa using h3⟩

theorem updateEmail_rows (req : UpdateUserRequest) (user : User) (db : DB) :
    (updateEmail req user db).2.rows = db.rows := by
  unfold updateEmail
  split
  · have hr := First_rows (fun u => u.Email == req.Email && u.ID != req.ID) db
    generalize First (fun u => u.Email == req.Email && u.ID != req.ID) db = x at hr ⊢
    rcases x with ⟨r, db1⟩
    cases r <;> simpa using hr
  · rfl

theorem updateEmail_some {req : UpdateUserRequest} {user user2 : User} {db : DB}
    (h : (updateEmail req user db).1 = some user2) :
    user2 = if req.Email = "" then user else { user with Email := req.Email } := by
  unfold updateEmail at h
  by_cases he : req.Email = ""
  · simp only [ne_eq, he, not_true_eq_false, if_false, Option.some.injEq] at h
    simp [he, h]
  · simp only [ne_eq, he, not_false_eq_true, if_true] at h
    generalize First (fun u => u.Email == req.Email && u.ID != req.ID) db = x at h
    rcases x with ⟨r, db1⟩
    cases r with
    | error e =>
      simp only [Option.some.injEq] at h
      simp [he, ← h]
    | ok v => exact absurd h (by simp)

theorem updatePassword_ok {h : Hasher} {req : UpdateUserRequest} {user user3 : User}
    (hp : updatePassword h req user = .ok user3) :
    (req.Password = "" → user3 = user) ∧
    (req.Password ≠ "" → ∃ hashed, h.HashPassword req.Password = .ok hashed ∧
      user3 = { user with Password := hashed }) := by
  unfold updatePassword at hp
  by_cases he : req.Password = ""
  · simp only [ne_eq, he, not_true_eq_false, if_false, Except.ok.injEq] at hp
    exact ⟨fun _ => hp.symm, fun hne => absurd he hne⟩
  · simp only [ne_eq, he, not_false_eq_true, if_true] at hp
    refine ⟨fun h0 => absurd h0 he, fun _ => ?_⟩
    cases hh : h.HashPassword req.Password with
    | error e => rw [hh] at hp; simp at hp
    | ok hashed =>
      rw [hh] at hp
      simp only [Except.ok.injEq] at hp
      exact ⟨hashed, rfl, hp.symm⟩

theorem dbSave_cases (u : User) (now : Nat) (db : DB) :
    (dbSave u now db).1.1 = { u with UpdatedAt := now } ∧
    (((dbSave u now db).1.2 ≠ none ∧ (dbSave u now db).2.rows = db.rows) ∨
     ((dbSave u now db).1.2 = none ∧
      (dbSave u now db).2.rows =
        db.rows.map (fun r => if active r && r.ID == u.ID then { u with UpdatedAt := now } else r))) := by
  have hr := nextFault_rows db
  unfold dbSave
  generalize db.nextFault = x at hr ⊢
  rcases x with ⟨f, db1⟩
  simp only at hr
  cases f with
  | some e => exact ⟨rfl, Or.inl ⟨by simp, hr⟩⟩
  | none =>
    simp only
    cases violation (db1.rows.filter (fun r => r.ID != u.ID)) { u with UpdatedAt := now } with
    | some m => exact ⟨rfl, Or.inl ⟨by simp, hr⟩⟩
    | none => exact ⟨rfl, Or.inr ⟨rfl, by simp only [hr]⟩⟩


theorem eq_of_nodup_ID {rows : List User} (hnd : (rows.map User.ID).Nodup) {a b : User}
    (ha : a ∈ rows) (hb : b ∈ rows) (hab : a.ID = b.ID) : a = b :=
  List.inj_on_of_nodup_map hnd ha hb hab

/-- C7: for every store, request and time.  When `Update` returns an error,
no row has changed.  When it returns no error, it returns a record `u`
built from the active row `old` it loaded under the request's id (the only
row with that id when ids are unique): `ID`, `CreatedAt` and `DeletedAt` are
those of `old`, `UpdatedAt` is the time of the call, each of name, email and
role is that of `old` when the request's field is the empty string and the
request's otherwise, the password is that of `old` when the request's is
empty and the digest of the request's otherwise; and `u` is what the table
then holds for the active rows with that id, all other rows unchanged. -/
theorem update_empty_means_absent (h : Hasher) (db : DB) (req : UpdateUserRequest) (now : Nat) :
    ((Update h req now db).1.2 ≠ none → (Update h req now db).2.rows = db.rows) ∧
    ((Update h req now db).1.2 = none →
      ∃ old u, old ∈ db.rows ∧ old.ID = req.ID ∧ old.DeletedAt = none ∧
        ((db.rows.map User.ID).Nodup → ∀ r ∈ db.rows, r.ID = req.ID → r = old) ∧
        (Update h req now db).1.1 = some u ∧
        (Update h req now db).2.rows =
          db.rows.map (fun r => if r.ID = req.ID ∧ r.DeletedAt = none then u else r) ∧
        u.ID = old.ID ∧ u.CreatedAt = old.CreatedAt ∧ u.DeletedAt = old.DeletedAt ∧
        u.UpdatedAt = now ∧
        (req.Name = "" → u.Name = old.Name) ∧ (req.Name ≠ "" → u.Name = req.Name) ∧
        (req.Email = "" → u.Email = old.Email) ∧ (req.Email ≠ "" → u.Email = req.Email) ∧
        (req.Password = "" → u.Password = old.Password) ∧
        (req.Password ≠ "" → h.HashPassword req.Password = .ok u.Password) ∧
        (req.Role = "" → u.Role = old.Role) ∧ (req.Role ≠ "" → u.Role = req.Role)) := by
  have hGr := GetByID_rows req.ID db
  have hGo := @GetByID_ok req.ID db
  unfold Update
  generalize GetByID req.ID db = g at hGr hGo ⊢
  rcases g with ⟨r, db1⟩
  cases r with
  | error e => exact ⟨fun _ => hGr, fun hn => absurd hn (by simp)⟩
  | ok old =>
    obtain ⟨hmem, hdel, hid⟩ := hGo rfl
    simp only at hGr ⊢
    have hEr := updateEmail_rows req (if req.Name ≠ "" then { old with Name := req.Name } else old) db1
    have hEs := fun user2 =>
      @updateEmail_some req (if req.Name ≠ "" then { old with Name := req.Name } else old) user2 db1
    generalize updateEmail req (if req.Name ≠ "" then { old with Name := req.Name } else old) db1 = e
      at hEr hEs ⊢
    rcases e with ⟨o, db2⟩
    cases o with
    | none => exact ⟨fun _ => hEr.trans hGr, fun hn => absurd hn (by simp)⟩
    | some user2 =>
      have h2 := hEs user2 rfl
      simp only at hEr ⊢
      have hP := fun user3 => @updatePassword_ok h req user2 user3
      cases hp : updatePassword h req user2 with
      | error err => exact ⟨fun _ => hEr.trans hGr, fun hn => absurd hn (by simp)⟩
      | ok user3 =>
        obtain ⟨hP0, hP1⟩ := hP user3 hp
        simp only
        have hS := dbSave_cases (if req.Role ≠ "" then { user3 with Role := req.Role } else user3) now db2
        generalize dbSave (if req.Role ≠ "" then { user3 with Role := req.Role } else user3) now db2 = s
          at hS ⊢
        rcases s with ⟨⟨user5, err⟩, db3⟩
        simp only at hS ⊢
        obtain ⟨h5, hS⟩ := hS
        rcases hS with ⟨herr, hrows⟩ | ⟨herr, hrows⟩
        · exact ⟨fun _ => by rw [hrows, hEr, hGr], fun hn => absurd hn herr⟩
        · refine ⟨fun hn => absurd herr hn, fun _ => ⟨old, user5, hmem, hid, hdel, ?_, rfl, ?_, ?_⟩⟩
          · intro hnd r hr hrid
            exact eq_of_nodup_ID hnd hr hmem (hrid.trans hid.symm)
          · have hID : (if req.Role ≠ "" then { user3 with Role := req.Role } else user3).ID = req.ID := by
              have h3 : user3.ID = user2.ID := by
                by_cases hPw : req.Password = ""
                · rw [hP0 hPw]
                · obtain ⟨hashed, _, h3⟩ := hP1 hPw
                  rw [h3]
              have h2' : user2.ID = old.ID := by
                rw [h2]; split_ifs <;> rfl
              have : (if req.Role ≠ "" then { user3 with Role := req.Role } else user3).ID = user3.ID := by
                split_ifs <;> rfl
              rw [this, h3, h2', hid]
            rw [hrows, ← h5, hEr, hGr, hID]
            apply List.map_congr_left
            intro r _
            by_cases hr : r.ID = req.ID <;> cases hd : r.DeletedAt <;> simp [active, hr, hd]
          · by_cases hPw : req.Password = ""
            · have h3 := hP0 hPw
              subst h3 h2 h5
              by_cases hN : req.Name = "" <;> by_cases hE : req.Email = "" <;>
                by_cases hR : req.Role = "" <;> simp [hN, hE, hR, hPw]
            · obtain ⟨hashed, hh, h3⟩ := hP1 hPw
              subst h3 h2 h5
              by_cases hN : req.Name = "" <;> by_cases hE : req.Email = "" <;>
                by_cases hR : req.Role = "" <;> simp [hN, hE, hR, hPw, hh]

/-- Worked example for C7: an update of Ann that supplies only a role keeps
her name, email, password, id and creation time, in the returned record and
in the table. -/
theorem update_empty_means_absent_witness :
    (Update demoHasher ⟨"u1", "", "", "", "admin"⟩ 20 demoDB).1 =
      (some { ann with Role := "admin", UpdatedAt := 20 }, none) ∧
    (Update demoHasher ⟨"u1", "", "", "", "admin"⟩ 20 demoDB).2.rows =
      [{ ann with Role := "admin", UpdatedAt := 20 }, bob] ∧
    ((Update demoHasher ⟨"u1", "", "", "", "admin"⟩ 20 demoDB).1.2 = none →
      ∃ old u, old ∈ demoDB.rows ∧ old.ID = "u1" ∧ old.DeletedAt = none ∧
        (Update demoHasher ⟨"u1", "", "", "", "admin"⟩ 20 demoDB).1.1 = some u ∧
        u.ID = old.ID ∧ u.CreatedAt = old.CreatedAt ∧ u.Name = old.Name) := by
  refine ⟨by decide, by decide, fun hn => ?_⟩
  obtain ⟨old, u, h1, h2, h3, _, h5, _, h7, h8, _, _, h11, _⟩ :=
    (update_empty_means_absent demoHasher demoDB ⟨"u1", "", "", "", "admin"⟩ 20).2 hn
  exact ⟨old, u, h1, h2, h3, h5, h7, h8, h11 rfl⟩


/-! ## Restore and the listing -/

/-- C8 (as amended): on a healthy store `Restore` returns "user not found"
exactly when no row, active or soft-deleted, has the id, and then leaves the
store as it was; when some row has the id it returns no error, and every row
with that id, soft-deleted or never deleted, ends active with `UpdatedAt`
set to the time of the call and its other six fields as before, every other
row unchanged. -/
theorem restore_not_found_iff (db : DB) (id : String) (now : Nat) (hf : db.faults = []) :
    ((Restore id now db).1 = some (.text "user not found") ↔ ∀ r ∈ db.rows, r.ID ≠ id) ∧
    ((∃ r ∈ db.rows, r.ID = id) → (Restore id now db).1 = none) ∧
    ((∀ r ∈ db.rows, r.ID ≠ id) → (Restore id now db).2 = db) ∧
    (Restore id now db).2.rows = db.rows.map (fun r =>
      if r.ID = id then { r with DeletedAt := none, UpdatedAt := now } else r) := by
  have hrows : (Restore id now db).2.rows = db.rows.map (fun r =>
      if r.ID = id then { r with DeletedAt := none, UpdatedAt := now } else r) := by
    rw [Restore_healthy id now db hf]
    apply List.map_congr_left
    intro r _
    by_cases hr : r.ID = id <;> simp [hr]
  have hfaults : (Restore id now db).2.faults = db.faults := by
    rw [Restore_healthy id now db hf]
  have hnone : (∀ r ∈ db.rows, r.ID ≠ id) →
      (Restore id now db).1 = some (.text "user not found") := by
    intro hall
    have h0 : db.rows.filter (fun u => u.ID == id) = [] := by
      rw [List.filter_eq_nil_iff]
      intro r hr
      simpa using hall r hr
    rw [Restore_healthy id now db hf, h0]
    rfl
  refine ⟨⟨?_, hnone⟩, fun hex => Restore_ok_of_mem hf hex, ?_, hrows⟩
  · intro herr r hr hid
    have := @Restore_ok_of_mem id now db hf ⟨r, hr, hid⟩
    rw [this] at herr
    exact absurd herr (by simp)
  · intro hall
    have hmap : (Restore id now db).2.rows = db.rows := by
      rw [hrows]
      conv_rhs => rw [← List.map_id db.rows]
      apply List.map_congr_left
      intro r hr
      simp [hall r hr]
    cases hR : (Restore id now db).2 with
    | mk rows faults =>
      rw [hR] at hmap hfaults
      simp only at hmap hfaults
      rw [hmap, hfaults]

/-- Witness for C8: Bob is soft-deleted and is restored at time 12. -/
theorem restore_not_found_iff_witness :
    demoDB.faults = [] ∧
    ((Restore "u2" 12 demoDB).1 = some (.text "user not found") ↔
      ∀ r ∈ demoDB.rows, r.ID ≠ "u2") ∧
    ((∃ r ∈ demoDB.rows, r.ID = "u2") → (Restore "u2" 12 demoDB).1 = none) ∧
    ((∀ r ∈ demoDB.rows, r.ID ≠ "u2") → (Restore "u2" 12 demoDB).2 = demoDB) ∧
    (Restore "u2" 12 demoDB).2.rows = demoDB.rows.map (fun r =>
      if r.ID = "u2" then { r with DeletedAt := none, UpdatedAt := 12 } else r) :=
  ⟨by decide, restore_not_found_iff demoDB "u2" 12 (by decide)⟩

/-- C8 (as stated) fails: Ann was never deleted; `Restore` at time 12
succeeds and leaves her active, but it is not a no-op: the store is not the
store before the call, her row now carrying `UpdatedAt = 12` instead of 1. -/
theorem restore_active_is_not_noop :
    ann ∈ demoDB.rows ∧ ann.DeletedAt = none ∧ ann.UpdatedAt = 1 ∧
    (Restore "u1" 12 demoDB).1 = none ∧
    (Restore "u1" 12 demoDB).2.rows = [{ ann with UpdatedAt := 12 }, bob] ∧
    (Restore "u1" 12 demoDB).2 ≠ demoDB := by
  decide


theorem GetAll_healthy (db : DB) (hf : db.faults = []) :
    GetAll db = ((db.rows.filter (fun u => active u), none), db) := by
  simp [GetAll, Find, nextFault_of_healthy hf]

theorem Delete_ok_iff {id : String} {now : Nat} {db : DB} (hf : db.faults = []) :
    (Delete id now db).1 = none ↔ ∃ r ∈ db.rows, r.ID = id ∧ r.DeletedAt = none := by
  constructor
  · intro h
    rw [Delete_healthy id now db hf] at h
    by_cases h0 : (db.rows.filter (fun u => active u && u.ID == id)).length = 0
    · simp [h0] at h
    · obtain ⟨r, hr⟩ := List.exists_mem_of_length_pos (Nat.pos_of_ne_zero h0)
      simp only [List.mem_filter, Bool.and_eq_true, beq_iff_eq] at hr
      exact ⟨r, hr.1, hr.2.2, by simpa [active] using hr.2.1⟩
  · exact Delete_ok_of_active hf

theorem active_mk_some (a b c d e : String) (f g n : Nat) :
    active ⟨a, b, c, d, e, f, g, some n⟩ = false := rfl

theorem active_mk_none (a b c d e : String) (f g : Nat) :
    active ⟨a, b, c, d, e, f, g, none⟩ = true := rfl

theorem filter_active_softDelete (rows : List User) (id : String) (now : Nat) :
    (rows.map (fun u => if active u && u.ID == id then { u with DeletedAt := some now } else u)).filter
        (fun u => active u) =
      (rows.filter (fun u => active u)).filter (fun u => u.ID != id) := by
  induction rows with
  | nil => rfl
  | cons r rs ih =>
    simp only [List.map_cons, List.filter_cons]
    by_cases ha : active r = true <;> by_cases hr : r.ID = id <;>
      simp [ha, hr, active_mk_some] at ih ⊢ <;> exact ih

theorem filter_active_undelete_others (rows : List User) (id : String) (now : Nat) :
    ((rows.map (fun r => if r.ID = id then { r with DeletedAt := none, UpdatedAt := now }
        else r)).filter (fun u => active u)).filter (fun u => u.ID != id) =
      (rows.filter (fun u => active u)).filter (fun u => u.ID != id) := by
  induction rows with
  | nil => rfl
  | cons r rs ih =>
    simp only [List.map_cons, List.filter_cons]
    by_cases ha : active r = true <;> by_cases hr : r.ID = id <;>
      simp [ha, hr, active_mk_none, List.filter_cons] at ih ⊢ <;> exact ih

/-- C9: on a healthy store `GetAll` returns no error and exactly the rows
whose `DeletedAt` is unset.  After a successful `Delete` of `id` at time
`now1` its result is the former result without the entries of that id; after
a following `Restore` at time `now2` every entry `r` of the first result
with that id is listed again (as restored, with `UpdatedAt = now2`), and the
entries of the other ids are those of the first result. -/
theorem getAll_active_only (db : DB) (id : String) (now1 now2 : Nat) (hf : db.faults = []) :
    (GetAll db).1.2 = none ∧
    (∀ u, u ∈ (GetAll db).1.1 ↔ u ∈ db.rows ∧ u.DeletedAt = none) ∧
    ((Delete id now1 db).1 = none →
      (GetAll (Delete id now1 db).2).1.1 = (GetAll db).1.1.filter (fun u => u.ID != id) ∧
      (∀ u ∈ (GetAll (Delete id now1 db).2).1.1, u.ID ≠ id) ∧
      (Restore id now2 (Delete id now1 db).2).1 = none ∧
      (∀ r ∈ (GetAll db).1.1, r.ID = id →
        { r with UpdatedAt := now2 } ∈ (GetAll (Restore id now2 (Delete id now1 db).2).2).1.1) ∧
      (∃ u ∈ (GetAll (Restore id now2 (Delete id now1 db).2).2).1.1, u.ID = id) ∧
      ((GetAll (Restore id now2 (Delete id now1 db).2).2).1.1.filter (fun u => u.ID != id) =
        (GetAll db).1.1.filter (fun u => u.ID != id))) := by
  have hmem : ∀ u, u ∈ db.rows.filter (fun u => active u) ↔ u ∈ db.rows ∧ u.DeletedAt = none := by
    intro u
    simp [List.mem_filter, active]
  rw [GetAll_healthy db hf]
  refine ⟨rfl, hmem, fun hd => ?_⟩
  have hex := (Delete_ok_iff hf).mp hd
  have hf1 : (Delete id now1 db).2.faults = [] := by
    rw [Delete_healthy id now1 db hf]; exact hf
  have hrows1 : (Delete id now1 db).2.rows = db.rows.map
      (fun u => if active u && u.ID == id then { u with DeletedAt := some now1 } else u) := by
    rw [Delete_healthy id now1 db hf]
  obtain ⟨_, hR, hrows2⟩ := Delete_Restore_healthy db id now1 now2 hf hex
  have hf2 : (Restore id now2 (Delete id now1 db).2).2.faults = [] := by
    rw [Restore_healthy id now2 _ hf1]; exact hf1
  rw [GetAll_healthy _ hf1, GetAll_healthy _ hf2, hrows1, hrows2]
  simp only
  have hback : ∀ r ∈ db.rows.filter (fun u => active u), r.ID = id →
      { r with UpdatedAt := now2 } ∈ (db.rows.map (fun r =>
        if r.ID = id then { r with DeletedAt := none, UpdatedAt := now2 } else r)).filter
          (fun u => active u) := by
    intro r hr hid
    rw [hmem] at hr
    rw [List.mem_filter, List.mem_map]
    refine ⟨⟨r, hr.1, ?_⟩, by simp [active, hr.2]⟩
    rw [if_pos hid, ← hr.2]
  refine ⟨filter_active_softDelete db.rows id now1, ?_, hR, hback, ?_,
    filter_active_undelete_others db.rows id now2⟩
  · intro u hu
    rw [filter_active_softDelete, List.mem_filter] at hu
    simpa using hu.2
  · obtain ⟨r, hr, hid, hdel⟩ := hex
    exact ⟨_, hback r ((hmem r).mpr ⟨hr, hdel⟩) hid, hid⟩

/-- Witness for C9: the listing before and after Ann is deleted at time 10
and restored at time 12. -/
theorem getAll_active_only_witness :
    demoDB.faults = [] ∧
    ((GetAll demoDB).1.2 = none ∧
    (∀ u, u ∈ (GetAll demoDB).1.1 ↔ u ∈ demoDB.rows ∧ u.DeletedAt = none) ∧
    ((Delete "u1" 10 demoDB).1 = none →
      (GetAll (Delete "u1" 10 demoDB).2).1.1 = (GetAll demoDB).1.1.filter (fun u => u.ID != "u1") ∧
      (∀ u ∈ (GetAll (Delete "u1" 10 demoDB).2).1.1, u.ID ≠ "u1") ∧
      (Restore "u1" 12 (Delete "u1" 10 demoDB).2).1 = none ∧
      (∀ r ∈ (GetAll demoDB).1.1, r.ID = "u1" →
        { r with UpdatedAt := 12 } ∈
          (GetAll (Restore "u1" 12 (Delete "u1" 10 demoDB).2).2).1.1) ∧
      (∃ u ∈ (GetAll (Restore "u1" 12 (Delete "u1" 10 demoDB).2).2).1.1, u.ID = "u1") ∧
      ((GetAll (Restore "u1" 12 (Delete "u1" 10 demoDB).2).2).1.1.filter (fun u => u.ID != "u1") =
        (GetAll demoDB).1.1.filter (fun u => u.ID != "u1")))) ∧
    (GetAll demoDB).1 = ([ann], none) ∧
    (GetAll (Delete "u1" 10 demoDB).2).1 = ([], none) ∧
    (GetAll (Restore "u1" 12 (Delete "u1" 10 demoDB).2).2).1 =
      ([{ ann with UpdatedAt := 12 }], none) :=
  ⟨by decide, getAll_active_only demoDB "u1" 10 12 (by decide), by decide, by decide, by decide⟩

/-! ## Store errors -/

/-- C10 fails on the code.  On a connection whose statements fail with
"connection refused": `GetByID` returns that error, but `Delete` and
`Restore` of stored users return "user not found", `Authenticate` with
the right password returns "invalid email or password", `GetUserStats`
answers 200 with `Success` and three zero counts, and `Create`, whose
lookup failed, goes on to insert and returns the new user without an
error. -/
theorem store_errors_are_masked :
    (GetByID "u1" brokenDB).1 = .error (.store "connection refused") ∧
    (Delete "u1" 10 brokenDB).1 = some (.text "user not found") ∧
    (Delete "u1" 10 brokenDB).1 ≠ some (.store "connection refused") ∧
    (Restore "u2" 10 brokenDB).1 = some (.text "user not found") ∧
    (Authenticate demoHasher ⟨"ann@x.com", "secret1"⟩ brokenDB).1 =
      (none, some (.text "invalid email or password")) ∧
    (Authenticate demoHasher ⟨"ann@x.com", "secret1"⟩ demoDB).1 = (some ann, none) ∧
    (GetUserStats brokenDB).1 =
      ⟨200, true, "User statistics retrieved successfully", "", 0, 0, 0⟩ ∧
    (GetUserStats demoDB).1 =
      ⟨200, true, "User statistics retrieved successfully", "", 1, 0, 1⟩ ∧
    (Create demoHasher ⟨"Cy", "cy@x.com", "secret9", ""⟩ "u3" 20
        ⟨[ann, bob], [some "connection refused"]⟩).1 =
      (some ⟨"u3", "Cy", "cy@x.com", "$2a$secret9", "client", 20, 20, none⟩, none) := by
  decide


/-! ## Role invariant -/

theorem violation_none_role {others : List User} {u : User} (h : violation others u = none) :
    u.Role = RoleAdmin ∨ u.Role = RoleClient := by
  unfold violation at h
  split_ifs at h with h1 h2 h3 h4 h5
  by_cases ha : u.Role = RoleAdmin
  · exact Or.inl ha
  · by_cases hc : u.Role = RoleClient
    · exact Or.inr hc
    · exact absurd (by simp [ha, hc]) h5

theorem dbCreate_rows (u : User) (newId : String) (now : Nat) (db : DB) :
    ((dbCreate u newId now db).1.2 ≠ none ∧ (dbCreate u newId now db).2.rows = db.rows) ∨
    ((dbCreate u newId now db).2.rows = db.rows ++ [(dbCreate u newId now db).1.1] ∧
      (dbCreate u newId now db).1.1.Role = (BeforeCreate u).Role ∧
      ((dbCreate u newId now db).1.1.Role = RoleAdmin ∨
        (dbCreate u newId now db).1.1.Role = RoleClient)) := by
  have hr := nextFault_rows db
  unfold dbCreate
  generalize db.nextFault = x at hr ⊢
  rcases x with ⟨f, db1⟩
  simp only at hr
  cases f with
  | some e => exact Or.inl ⟨by simp, hr⟩
  | none =>
    simp only
    cases hv : violation db1.rows
        { BeforeCreate u with ID := newId, CreatedAt := now, UpdatedAt := now } with
    | some m => exact Or.inl ⟨by simp, hr⟩
    | none => exact Or.inr ⟨by simp only [hr], rfl, violation_none_role hv⟩

theorem Create_rows (h : Hasher) (req : CreateUserRequest) (newId : String) (now : Nat)
    (db : DB) :
    ((Create h req newId now db).1.2 ≠ none ∧ (Create h req newId now db).2.rows = db.rows) ∨
    ∃ row : User, (Create h req newId now db).2.rows = db.rows ++ [row] ∧
      row.Role = (if req.Role = "" then RoleClient else req.Role) ∧
      (row.Role = RoleAdmin ∨ row.Role = RoleClient) := by
  have hFr := First_rows (fun u => u.Email == req.Email) db
  unfold Create
  generalize First (fun u => u.Email == req.Email) db = x at hFr ⊢
  rcases x with ⟨r, db1⟩
  simp only at hFr
  cases r with
  | ok v => exact Or.inl ⟨by simp, hFr⟩
  | error e =>
    simp only
    cases h.HashPassword req.Password with
    | error err => exact Or.inl ⟨by simp, hFr⟩
    | ok hashed =>
      simp only
      have hC := dbCreate_rows
        ⟨"", req.Name, req.Email, hashed, if req.Role = "" then RoleClient else req.Role, 0, 0, none⟩
        newId now db1
      generalize dbCreate
        ⟨"", req.Name, req.Email, hashed, if req.Role = "" then RoleClient else req.Role, 0, 0, none⟩
        newId now db1 = y at hC ⊢
      rcases y with ⟨⟨user1, err⟩, db2⟩
      simp only at hC
      rcases hC with ⟨herr, hrows⟩ | ⟨hrows, hrole, hvalid⟩
      · cases err with
        | none => exact absurd rfl herr
        | some e1 => exact Or.inl ⟨by simp, hrows.trans hFr⟩
      · have hB : (BeforeCreate
            ⟨"", req.Name, req.Email, hashed, if req.Role = "" then RoleClient else req.Role,
              0, 0, none⟩).Role = (if req.Role = "" then RoleClient else req.Role) := by
          by_cases hq : req.Role = "" <;> simp [BeforeCreate, hq, RoleClient]
        cases err with
        | none => exact Or.inr ⟨user1, by simp only [hrows, hFr], hrole.trans hB, hvalid⟩
        | some e1 => exact Or.inr ⟨user1, by simp only [hrows, hFr], hrole.trans hB, hvalid⟩


theorem dbSave_rows_role (u : User) (now : Nat) (db : DB) :
    ((dbSave u now db).1.2 ≠ none ∧ (dbSave u now db).2.rows = db.rows) ∨
    ((u.Role = RoleAdmin ∨ u.Role = RoleClient) ∧
      ∀ r ∈ (dbSave u now db).2.rows, r ∈ db.rows ∨ r.Role = u.Role) := by
  have hr := nextFault_rows db
  unfold dbSave
  generalize db.nextFault = x at hr ⊢
  rcases x with ⟨f, db1⟩
  simp only at hr
  cases f with
  | some e => exact Or.inl ⟨by simp, hr⟩
  | none =>
    simp only
    cases hv : violation (db1.rows.filter (fun r => r.ID != u.ID)) { u with UpdatedAt := now } with
    | some m => exact Or.inl ⟨by simp, hr⟩
    | none =>
      refine Or.inr ⟨violation_none_role hv, ?_⟩
      intro r hrm
      simp only [hr, List.mem_map] at hrm
      obtain ⟨r0, hr0, hre⟩ := hrm
      split at hre
      · exact Or.inr (by rw [← hre])
      · exact Or.inl (by rw [← hre]; exact hr0)

theorem Update_rows (h : Hasher) (req : UpdateUserRequest) (now : Nat) (db : DB) :
    ((Update h req now db).1.2 ≠ none ∧ (Update h req now db).2.rows = db.rows) ∨
    ∃ role : UserRole, (role = RoleAdmin ∨ role = RoleClient) ∧
      (req.Role ≠ "" → role = req.Role) ∧
      ∀ r ∈ (Update h req now db).2.rows, r ∈ db.rows ∨ r.Role = role := by
  have hGr := GetByID_rows req.ID db
  unfold Update
  generalize GetByID req.ID db = g at hGr ⊢
  rcases g with ⟨r, db1⟩
  cases r with
  | error e => exact Or.inl ⟨by simp, hGr⟩
  | ok old =>
    simp only at hGr ⊢
    have hEr := updateEmail_rows req (if req.Name ≠ "" then { old with Name := req.Name } else old) db1
    generalize updateEmail req (if req.Name ≠ "" then { old with Name := req.Name } else old) db1 = e
      at hEr ⊢
    rcases e with ⟨o, db2⟩
    cases o with
    | none => exact Or.inl ⟨by simp, hEr.trans hGr⟩
    | some user2 =>
      simp only at hEr ⊢
      cases updatePassword h req user2 with
      | error err => exact Or.inl ⟨by simp, hEr.trans hGr⟩
      | ok user3 =>
        simp only
        have hS := dbSave_rows_role
          (if req.Role ≠ "" then { user3 with Role := req.Role } else user3) now db2
        generalize dbSave (if req.Role ≠ "" then { user3 with Role := req.Role } else user3) now db2 = s
          at hS ⊢
        rcases s with ⟨⟨user5, err⟩, db3⟩
        simp only at hS ⊢
        rcases hS with ⟨herr, hrows⟩ | ⟨hvalid, hmem⟩
        · exact Or.inl ⟨herr, by rw [hrows, hEr, hGr]⟩
        · refine Or.inr ⟨_, hvalid, ?_, ?_⟩
          · intro hne
            simp [hne]
          · intro r hr
            rw [← hGr, ← hEr]
            exact hmem r hr

theorem Delete_snd (id : String) (now : Nat) (db : DB) :
    (Delete id now db).2 = (dbDelete (fun u => u.ID == id) now db).2 := by
  unfold Delete
  generalize dbDelete (fun u => u.ID == id) now db = y
  rcases y with ⟨res, db1⟩
  simp only
  split <;> rfl

theorem Restore_snd (id : String) (now : Nat) (db : DB) :
    (Restore id now db).2 = (dbUndelete (fun u => u.ID == id) now db).2 := by
  unfold Restore
  generalize dbUndelete (fun u => u.ID == id) now db = y
  rcases y with ⟨res, db1⟩
  simp only
  split <;> rfl

theorem Delete_rows_role (id : String) (now : Nat) (db : DB) :
    ∀ r ∈ (Delete id now db).2.rows, ∃ r0 ∈ db.rows, r.Role = r0.Role := by
  have hr := nextFault_rows db
  rw [Delete_snd]
  unfold dbDelete
  generalize db.nextFault = x at hr ⊢
  rcases x with ⟨f, db1⟩
  simp only at hr
  cases f with
  | some e =>
    intro r hrm
    exact ⟨r, by rw [← hr]; exact hrm, rfl⟩
  | none =>
    intro r hrm
    simp only [hr, List.mem_map] at hrm
    obtain ⟨r0, hr0, hre⟩ := hrm
    refine ⟨r0, hr0, ?_⟩
    split at hre <;> rw [← hre]

theorem Restore_rows_role (id : String) (now : Nat) (db : DB) :
    ∀ r ∈ (Restore id now db).2.rows, ∃ r0 ∈ db.rows, r.Role = r0.Role := by
  have hr := nextFault_rows db
  rw [Restore_snd]
  unfold dbUndelete
  generalize db.nextFault = x at hr ⊢
  rcases x with ⟨f, db1⟩
  simp only at hr
  cases f with
  | some e =>
    intro r hrm
    exact ⟨r, by rw [← hr]; exact hrm, rfl⟩
  | none =>
    intro r hrm
    simp only [hr, List.mem_map] at hrm
    obtain ⟨r0, hr0, hre⟩ := hrm
    refine ⟨r0, hr0, ?_⟩
    split at hre <;> rw [← hre]

/-- One call keeps the roles of the table inside the enum. -/
theorem Call_run_roles (h : Hasher) (c : Call) (db : DB)
    (hinv : ∀ u ∈ db.rows, u.Role = RoleAdmin ∨ u.Role = RoleClient) :
    ∀ u ∈ (c.run h db).rows, u.Role = RoleAdmin ∨ u.Role = RoleClient := by
  cases c with
  | create req newId now =>
    intro u hu
    simp only [Call.run] at hu
    rcases Create_rows h req newId now db with ⟨_, hrows⟩ | ⟨row, hrows, _, hvalid⟩
    · rw [hrows] at hu
      exact hinv u hu
    · rw [hrows, List.mem_append, List.mem_singleton] at hu
      rcases hu with hu | hu
      · exact hinv u hu
      · rw [hu]; exact hvalid
  | update req now =>
    intro u hu
    simp only [Call.run] at hu
    rcases Update_rows h req now db with ⟨_, hrows⟩ | ⟨role, hvalid, _, hmem⟩
    · rw [hrows] at hu
      exact hinv u hu
    · rcases hmem u hu with h1 | h1
      · exact hinv u h1
      · rw [h1]; exact hvalid
  | delete id now =>
    intro u hu
    obtain ⟨r0, hr0, he⟩ := Delete_rows_role id now db u hu
    rw [he]; exact hinv r0 hr0
  | restore id now =>
    intro u hu
    obtain ⟨r0, hr0, he⟩ := Restore_rows_role id now db u hu
    rw [he]; exact hinv r0 hr0

theorem runCalls_roles (h : Hasher) (calls : List Call) (db : DB)
    (hinv : ∀ u ∈ db.rows, u.Role = RoleAdmin ∨ u.Role = RoleClient) :
    ∀ u ∈ (runCalls h calls db).rows, u.Role = RoleAdmin ∨ u.Role = RoleClient := by
  induction calls generalizing db with
  | nil => exact hinv
  | cons c cs ih => exact ih (c.run h db) (Call_run_roles h c db hinv)

/-- C11: start from a store whose rows all have role "admin" or "client".
After any sequence of `Create`, `Update`, `Delete` and `Restore` calls, with
any requests, identifiers, times, hasher and connection faults, every row of
the table has role "admin" or "client".  A `Create` or an `Update` whose
request carries any other non-empty role returns an error and leaves every
row as it was. -/
theorem role_invariant (h : Hasher) (db : DB)
    (hinit : ∀ u ∈ db.rows, u.Role = RoleAdmin ∨ u.Role = RoleClient) :
    (∀ calls : List Call, ∀ u ∈ (runCalls h calls db).rows,
      u.Role = RoleAdmin ∨ u.Role = RoleClient) ∧
    (∀ (req : CreateUserRequest) (newId : String) (now : Nat),
      req.Role ≠ "" → req.Role ≠ RoleAdmin → req.Role ≠ RoleClient →
      (Create h req newId now db).1.2 ≠ none ∧ (Create h req newId now db).2.rows = db.rows) ∧
    (∀ (req : UpdateUserRequest) (now : Nat),
      req.Role ≠ "" → req.Role ≠ RoleAdmin → req.Role ≠ RoleClient →
      (Update h req now db).1.2 ≠ none ∧ (Update h req now db).2.rows = db.rows) := by
  refine ⟨fun calls => runCalls_roles h calls db hinit, ?_, ?_⟩
  · intro req newId now h0 ha hc
    rcases Create_rows h req newId now db with hfail | ⟨row, _, hrole, hvalid⟩
    · exact hfail
    · rw [hrole, if_neg h0] at hvalid
      rcases hvalid with hv | hv
      · exact absurd hv ha
      · exact absurd hv hc
  · intro req now h0 ha hc
    rcases Update_rows h req now db with hfail | ⟨role, hvalid, hrole, _⟩
    · exact hfail
    · rw [hrole h0] at hvalid
      rcases hvalid with hv | hv
      · exact absurd hv ha
      · exact absurd hv hc

/-- Calls of the worked example for C11: a registration as "root", an update
of Ann to "superuser", a delete and a restore of Ann, a registration without
a role, and an update of Ann to "admin". -/
theorem role_invariant_witness :
    (∀ u ∈ demoDB.rows, u.Role = RoleAdmin ∨ u.Role = RoleClient) ∧
    ((∀ calls : List Call, ∀ u ∈ (runCalls demoHasher calls demoDB).rows,
      u.Role = RoleAdmin ∨ u.Role = RoleClient) ∧
    (∀ (req : CreateUserRequest) (newId : String) (now : Nat),
      req.Role ≠ "" → req.Role ≠ RoleAdmin → req.Role ≠ RoleClient →
      (Create demoHasher req newId now demoDB).1.2 ≠ none ∧
      (Create demoHasher req newId now demoDB).2.rows = demoDB.rows) ∧
    (∀ (req : UpdateUserRequest) (now : Nat),
      req.Role ≠ "" → req.Role ≠ RoleAdmin → req.Role ≠ RoleClient →
      (Update demoHasher req now demoDB).1.2 ≠ none ∧
      (Update demoHasher req now demoDB).2.rows = demoDB.rows)) ∧
    (runCalls demoHasher
      [.create ⟨"Eve", "eve@x.com", "letmein", "root"⟩ "u3" 20,
       .update ⟨"u1", "", "", "", "superuser"⟩ 21,
       .delete "u1" 22,
       .restore "u1" 23,
       .create ⟨"Cy", "cy@x.com", "secret9", ""⟩ "u4" 24,
       .update ⟨"u1", "", "", "", "admin"⟩ 25] demoDB).rows =
      [{ ann with Role := "admin", UpdatedAt := 25 }, bob,
       ⟨"u4", "Cy", "cy@x.com", "$2a$secret9", "client", 24, 24, none⟩] ∧
    (Create demoHasher ⟨"Eve", "eve@x.com", "letmein", "root"⟩ "u3" 20 demoDB).1 =
      (none, some (.store "new row violates check constraint chk_users_role")) :=
  ⟨by decide, role_invariant demoHasher demoDB (by decide), by decide, by decide⟩

end GoNext
